import Mathlib

/-
  Verification of the frame-assembly / depth-partitioning core of
  celengine/render.cpp (Renderer::draw depth partitioning,
  Renderer::renderOrbit orbit sample cache, orbit cache eviction,
  Renderer::buildRenderLists subtree culling, Renderer::testEclipse).

  Camera-space convention from the source: the camera looks down the
  negative z axis, so every visible object has z < 0; `nearZ`/`farZ`
  are signed camera-space z values with farZ <= nearZ <= 0, and the
  positive clip-plane distances used at draw time are their negations
  (render.cpp lines 3326-3327).  Floating point arithmetic is embedded
  as exact rational arithmetic; float literals (1.01f, 0.999f, 0.01f,
  1.0e-15, 0.2) become the corresponding rationals.
-/

namespace Celestia

/-- MinNearPlaneDistance = 0.0001 km (render.cpp line 118). -/
def MinNearPlaneDistance : ℚ := 1 / 10000

/-- MinRelativeOccluderRadius = 0.005 (render.cpp line 128). -/
def MinRelativeOccluderRadius : ℚ := 5 / 1000

/-- OrbitCacheCullThreshold = 200 (render.cpp line 181). -/
def OrbitCacheCullThreshold : ℕ := 200

/-- OrbitCacheRetireAge = 16 (render.cpp line 183). -/
def OrbitCacheRetireAge : ℕ := 16

/-- PLANETSHINE_DISTANCE_LIMIT_FACTOR = 100 (render.cpp line 101). -/
def PLANETSHINE_DISTANCE_LIMIT_FACTOR : ℚ := 100

/-- PLANETSHINE_PIXEL_SIZE_LIMIT = 0.1 (render.cpp line 105). -/
def PLANETSHINE_PIXEL_SIZE_LIMIT : ℚ := 1 / 10

/-- std::max over the embedded rationals, written so that it evaluates
by kernel reduction. -/
def rmax (a b : ℚ) : ℚ := if a < b then b else a

/-- std::min over the embedded rationals, written so that it evaluates
by kernel reduction. -/
def rmin (a b : ℚ) : ℚ := if b < a then b else a

/-! ### Depth buffer partitioning (Renderer::draw, render.cpp 3187-3332) -/

/-- The fields of a render list entry consumed by the depth-partitioning
loop: camera-space near/far extents and projected disc size in pixels. -/
structure RenderListEntryZ where
  nearZ : ℚ
  farZ : ℚ
  discSizeInPixels : ℚ
deriving DecidableEq

/-- DepthBufferPartition (render.cpp): index and signed camera-space
near/far z bounds of one depth interval. -/
structure DepthBufferPartition where
  index : ℕ
  nearZ : ℚ
  farZ : ℚ
deriving DecidableEq

/-- The fields of an orbit path list entry consumed by the partitioning
stage: camera-space depth of the orbit center and bounding radius. -/
structure OrbitPathZ where
  centerZ : ℚ
  radius : ℚ
deriving DecidableEq

/-- State of the partitioning loop: the partitions built so far (in
construction order, mirroring push_back) and the near frontier
`prevNear`.  The source's `nIntervals` always equals
`depthPartitions.size()`, so it is represented by `parts.length`. -/
structure PartitionState where
  parts : List DepthBufferPartition
  prevNear : ℚ
deriving DecidableEq

/-- The new-interval branch of the partitioning loop (render.cpp
3202-3227): push a filler interval `(nearZ := e.farZ, farZ :=
prevNear)` for the gap back to the frontier unless it is degenerate
(the source's `partition.nearZ != partition.farZ` test, spelled on the
components here), then push the object's own interval; `nIntervals`
(our list length) advances accordingly and the frontier becomes the
object's near extent. -/
def partitionNewInterval (st : PartitionState) (e : RenderListEntryZ) : PartitionState :=
  if e.farZ = st.prevNear then
    { parts := st.parts ++
        [{ index := st.parts.length, nearZ := e.nearZ, farZ := e.farZ }],
      prevNear := e.nearZ }
  else
    { parts := (st.parts ++
        [{ index := st.parts.length, nearZ := e.farZ, farZ := st.prevNear }]) ++
        [{ index := st.parts.length + 1, nearZ := e.nearZ, farZ := e.farZ }],
      prevNear := e.nearZ }

/-- One iteration of the back-to-front partitioning scan (render.cpp
3197-3239): entries larger than one pixel either open a new interval
(when disjoint from the current frontier) or expand the current one. -/
def partitionStep (st : PartitionState) (e : RenderListEntryZ) : PartitionState :=
  if 1 < e.discSizeInPixels then
    match st.parts.getLast? with
    | none => partitionNewInterval st e
    | some lastP =>
      if lastP.nearZ ≤ e.farZ then
        partitionNewInterval st e
      else
        { parts := st.parts.dropLast ++
            [{ lastP with nearZ := rmax lastP.nearZ e.nearZ,
                          farZ := rmin lastP.farZ e.farZ }],
          prevNear := rmax lastP.nearZ e.nearZ }
  else st

/-- Initial near frontier (render.cpp 3189-3191): about one light year
behind everything, or just beyond the farthest entry when one exists. -/
def initialPrevNear (renderList : List RenderListEntryZ) : ℚ :=
  match renderList.getLast? with
  | none => -(10 ^ 12 : ℚ)
  | some e => e.farZ * (101 / 100)

/-- Scan of the orbit path list for the nearest orbit bound
(render.cpp 3243-3250). -/
def zNearestOrbits (orbitPathList : List OrbitPathZ) (z0 : ℚ) : ℚ :=
  orbitPathList.foldl
    (fun z o =>
      let minNearDistance := rmin (-MinNearPlaneDistance) (o.centerZ + o.radius)
      if z < minNearDistance then minNearDistance else z)
    z0

/-- Adjustment of the nearest bound for the closest depth-sorted label
(render.cpp 3254-3261).  `annNegZ` is the value
`-depthSortedAnnotations[0].position.z()` when that list is nonempty. -/
def zNearestMarkers (annNegZ : Option ℚ) (z : ℚ) : ℚ :=
  match annNegZ with
  | none => z
  | some a => if z < a then a * (999 / 1000) else z

/-- The back-to-front partitioning scan over the whole (front-to-back
sorted) render list (render.cpp 3187-3239). -/
def partitionScan (renderList : List RenderListEntryZ) : PartitionState :=
  renderList.reverse.foldl partitionStep
    { parts := [], prevNear := initialPrevNear renderList }

/-- The nearest-bound search result after the orbit scan, the marker
adjustment and the zero fallback (render.cpp 3243-3273): when neither
orbits nor markers raised the frontier, nothing occludes and the value
falls back to zero. -/
def zNearestBound (orbitPathList : List OrbitPathZ) (annNegZ : Option ℚ)
    (prevNear : ℚ) : ℚ :=
  if zNearestMarkers annNegZ (zNearestOrbits orbitPathList prevNear) = prevNear then 0
  else zNearestMarkers annNegZ (zNearestOrbits orbitPathList prevNear)

/-- The near bound of the final frontmost interval (render.cpp
3277-3292): clamp the nearest bound to the front entry's near extent,
and replace an exactly-zero bound by a small fraction of it. -/
def closestBound (renderList : List RenderListEntryZ)
    (orbitPathList : List OrbitPathZ) (annNegZ : Option ℚ)
    (st : PartitionState) : ℚ :=
  match renderList.head? with
  | none => zNearestBound orbitPathList annNegZ st.prevNear
  | some e0 =>
    if rmax (zNearestBound orbitPathList annNegZ st.prevNear) e0.nearZ = 0 then
      e0.nearZ * (1 / 100)
    else
      rmax (zNearestBound orbitPathList annNegZ st.prevNear) e0.nearZ

/-- Far extension of the farthest (first-constructed) partition so it
contains the farthest orbit path (render.cpp 3305-3310). -/
def adjustFarthestForOrbit (orbitPathList : List OrbitPathZ)
    (parts : List DepthBufferPartition) : List DepthBufferPartition :=
  match orbitPathList.getLast? with
  | none => parts
  | some o =>
    match parts with
    | [] => []
    | p0 :: rest => { p0 with farZ := rmin p0.farZ (o.centerZ - o.radius) } :: rest

/-- The complete depth-partition construction of Renderer::draw
(render.cpp 3187-3310): the back-to-front scan, the nearest-bound
search, the final frontmost interval, and the far extension of
partition 0 for the farthest orbit path. -/
def buildDepthPartitions (renderList : List RenderListEntryZ)
    (orbitPathList : List OrbitPathZ) (annNegZ : Option ℚ) :
    List DepthBufferPartition :=
  adjustFarthestForOrbit orbitPathList
    ((partitionScan renderList).parts ++
      [{ index := (partitionScan renderList).parts.length,
         nearZ := closestBound renderList orbitPathList annNegZ
           (partitionScan renderList),
         farZ := (partitionScan renderList).prevNear }])

/-- Depth-buffer slice allocated to one interval (render.cpp 3319,
3331-3332): interval size 1/max(1,n), interval `i` mapped to
[1-(i+1)/n, 1-i/n]. -/
def intervalDepthRange (nIntervals i : ℕ) : ℚ × ℚ :=
  let intervalSize : ℚ := 1 / (Nat.max 1 nIntervals : ℕ)
  (1 - (i + 1 : ℕ) * intervalSize, 1 - (i : ℕ) * intervalSize)

/-- The no-gap relation between consecutive partitions in construction
order: the later (nearer) interval's far bound does not leave a gap
beyond the earlier interval's near bound. -/
def gapFree (p q : DepthBufferPartition) : Prop := q.farZ ≤ p.nearZ

/-- Back-to-front ordering of consecutive partitions by near bound. -/
def nearOrder (p q : DepthBufferPartition) : Prop := p.nearZ ≤ q.nearZ

/-- Loop invariant of the partitioning scan: the partitions built so
far are gap-free in construction order, and the near frontier
`prevNear` is the near bound of the last partition. -/
def PartInv (st : PartitionState) : Prop :=
  List.Chain' gapFree st.parts ∧
  ∀ p, st.parts.getLast? = some p → p.nearZ = st.prevNear

/-- Strengthened loop invariant used for the sign/ordering claim, for
render lists whose entries lie in front of the camera: all stored
bounds are nonpositive, the frontier is bounded by the nearest entry's
near extent, partitions are ordered back to front, and the first
partition carries index 0. -/
def PartInvB (bound : ℚ) (st : PartitionState) : Prop :=
  (∀ p ∈ st.parts, p.nearZ ≤ 0 ∧ p.farZ ≤ 0) ∧
  st.prevNear ≤ 0 ∧
  st.prevNear ≤ bound ∧
  List.Chain' nearOrder st.parts ∧
  (∀ p, st.parts.head? = some p → p.index = 0)

/-! ### Orbit sample cache window (Renderer::renderOrbit, render.cpp
1560-1729)

CurvePlot itself lives outside this file (celmath/curveplot); it is
modelled from the spec as a time-ordered list of sample times, with
`removeSamplesBefore`/`removeSamplesAfter` trimming by time and
`sample t0 t1` (the adaptive orbit sampler, also external) given as a
parameter producing the sample times for a requested range. -/

/-- WindowSlack = 0.2 (render.cpp line 1679). -/
def WindowSlack : ℚ := 1 / 5

/-- The relative trim factor 1.0e-15 used to drop a duplicated boundary
sample (render.cpp lines 1703, 1719). -/
def TrimEps : ℚ := 1 / 10 ^ 15

/-- Modelled from the spec: CurvePlot::removeSamplesBefore drops
samples earlier than the given time. -/
def removeSamplesBefore (t : ℚ) (xs : List ℚ) : List ℚ :=
  xs.filter fun x => decide (t ≤ x)

/-- Modelled from the spec: CurvePlot::removeSamplesAfter drops samples
later than the given time. -/
def removeSamplesAfter (t : ℚ) (xs : List ℚ) : List ℚ :=
  xs.filter fun x => decide (x ≤ t)

/-- Modelled from the spec: CurvePlot::startTime is the time of the
first sample. -/
def plotStartTime (xs : List ℚ) : ℚ := xs.headD 0

/-- Modelled from the spec: CurvePlot::endTime is the time of the last
sample. -/
def plotEndTime (xs : List ℚ) : ℚ := xs.getLastD 0

/-- End of the orbit display window (render.cpp 1689):
t + period * OrbitWindowEnd. -/
def displayWindowEnd (period owe t : ℚ) : ℚ := t + period * owe

/-- Start of the orbit display window (render.cpp 1690):
window end - period * OrbitPeriodsShown. -/
def displayWindowStart (period owe ops t : ℚ) : ℚ :=
  displayWindowEnd period owe t - period * ops

/-- The periodic-orbit cache window update of Renderer::renderOrbit
(render.cpp 1686-1729): slide the cached window backward or forward by
trimming stale samples, dropping the duplicated boundary sample, and
sampling the uncovered range with slack; when the display window is
inside the cached window, do nothing. -/
def updateOrbitWindow (sample : ℚ → ℚ → List ℚ)
    (period owe ops t : ℚ) (xs : List ℚ) : List ℚ :=
  let endTime := displayWindowEnd period owe t
  let startTime := displayWindowStart period owe ops t
  let currentWindowStart := plotStartTime xs
  let currentWindowEnd := plotEndTime xs
  let newWindowStart := startTime - period * WindowSlack
  let newWindowEnd := endTime + period * WindowSlack
  if startTime < currentWindowStart then
    let xs1 := removeSamplesAfter newWindowEnd xs
    let xs2 := removeSamplesBefore (plotStartTime xs1 * (1 + TrimEps)) xs1
    sample newWindowStart (rmin currentWindowStart newWindowEnd) ++ xs2
  else if currentWindowEnd < endTime then
    let xs1 := removeSamplesBefore newWindowStart xs
    let xs2 := removeSamplesAfter (plotEndTime xs1 * (1 - TrimEps)) xs1
    xs2 ++ sample (rmax currentWindowEnd newWindowStart) newWindowEnd
  else xs

/-- One Renderer::renderOrbit sample-cache pass for a periodic orbit
(render.cpp 1589-1657, 1686-1729): a cache miss samples one full period
ending at the current time; an empty plot short-circuits; otherwise the
window update runs. -/
def renderOrbitSamples (sample : ℚ → ℚ → List ℚ)
    (period owe ops t : ℚ) (cache : Option (List ℚ)) : List ℚ :=
  let xs :=
    match cache with
    | none => sample (t - period) (t - period + period)
    | some ys => ys
  if xs = [] then xs else updateOrbitWindow sample period owe ops t xs

/-- A concrete executable model sampler used to exercise the cache
window logic on closed inputs: the two endpoints of the requested range
and its midpoint. -/
def sampleLin (t0 t1 : ℚ) : List ℚ := [t0, (t0 + t1) / 2, t1]

/-! ### Orbit cache eviction (render.cpp 1581-1587, 1634-1653) -/

/-- Orbit cache state: entries keyed by orbit identity with their
last-used frame, the frame counter, and the last flush frame
(render.cpp lines 469-470 initialize both counters to 0; frameCount is
incremented once per draw call, line 2473). -/
structure OrbitCacheState where
  cache : List (ℕ × ℕ)
  frameCount : ℕ
  lastOrbitCacheFlush : ℕ
deriving DecidableEq

/-- Cache lookup by orbit identity (render.cpp 1582). -/
def cacheLookup (id : ℕ) (c : List (ℕ × ℕ)) : Bool :=
  c.any fun e => decide (e.1 = id)

/-- Update the last-used frame of a cache hit (render.cpp 1586). -/
def setLastUsed (id fc : ℕ) (c : List (ℕ × ℕ)) : List (ℕ × ℕ) :=
  c.map fun e => if e.1 = id then (e.1, fc) else e

/-- The eviction scan body (render.cpp 1640-1648): erase every entry
unused for more than OrbitCacheRetireAge frames. -/
def cullOldOrbits (frameCount : ℕ) (c : List (ℕ × ℕ)) : List (ℕ × ℕ) :=
  c.filter fun e => decide (frameCount - e.2 ≤ OrbitCacheRetireAge)

/-- Whether the eviction scan runs in this renderOrbit call: only on a
cache miss, only when the cache exceeds the cull threshold and no scan
has run yet this frame (render.cpp 1635-1638). -/
def scanRuns (st : OrbitCacheState) (id : ℕ) : Prop :=
  cacheLookup id st.cache = false ∧
  OrbitCacheCullThreshold < st.cache.length ∧
  st.lastOrbitCacheFlush ≠ st.frameCount

instance (st : OrbitCacheState) (id : ℕ) : Decidable (scanRuns st id) := by
  unfold scanRuns
  infer_instance

/-- The cache maintenance performed by one Renderer::renderOrbit call
for orbit `id`: a hit refreshes lastUsed; a miss runs the at most
once-per-frame eviction scan when the cache is over the threshold and
then inserts the new entry (render.cpp 1581-1587 and 1634-1653). -/
def renderOrbitCacheStep (st : OrbitCacheState) (id : ℕ) : OrbitCacheState :=
  if cacheLookup id st.cache then
    { st with cache := setLastUsed id st.frameCount st.cache }
  else if OrbitCacheCullThreshold < st.cache.length ∧
          st.lastOrbitCacheFlush ≠ st.frameCount then
    { cache := cullOldOrbits st.frameCount st.cache ++ [(id, st.frameCount)],
      frameCount := st.frameCount,
      lastOrbitCacheFlush := st.frameCount }
  else
    { st with cache := st.cache ++ [(id, st.frameCount)] }

/-- Instrumented trace state: the cache state plus the number of
insertions made since the last eviction scan (the quantity named by the
spec's eviction bound). -/
structure CacheTrace where
  st : OrbitCacheState
  insertsSinceScan : ℕ
deriving DecidableEq

/-- One instrumented step: run renderOrbitCacheStep and account the
insertion counter, resetting it when the scan runs (the scan precedes
the insertion inside the call, so a miss that triggers the scan counts
as one insertion after it). -/
def traceStep (tr : CacheTrace) (id : ℕ) : CacheTrace :=
  let st' := renderOrbitCacheStep tr.st id
  let base := if scanRuns tr.st id then 0 else tr.insertsSinceScan
  let ins := if cacheLookup id tr.st.cache then base else base + 1
  { st := st', insertsSinceScan := ins }

/-! ### Subtree recursion culling (Renderer::buildRenderLists,
render.cpp 5793-5875) -/

/-- Inputs of the subtree culling decision.  `brightestFarMag` stands
for the value of astro::lumToAppMag over the accumulated reflected
luminosity (render.cpp 5819-5825), and `distVN`, `sinViewAngle`,
`invCosViewAngle`, `perpDistSq` for the view-cone geometry computed
earlier in buildRenderLists; both are produced by code outside this
file and enter the decision only through comparisons. -/
structure SubtreeCullInput where
  distV : ℚ
  boundingSphereRadius : ℚ
  maxChildRadius : ℚ
  pixelSize : ℚ
  faintestPlanetMag : ℚ
  brightestFarMag : ℚ
  frustumOutside : Bool
  containsSecondaryIlluminators : Bool
  distVN : ℚ
  sinViewAngle : ℚ
  invCosViewAngle : ℚ
  perpDistSq : ℚ
deriving DecidableEq

/-- Best-case brightness and size of a subtree object (render.cpp
5807-5835): computed from the minimum possible distance when the viewer
is outside the bounding sphere, otherwise forced to the
nothing-can-be-culled values -100 and 100. -/
def subtreeBrightestLargest (inp : SubtreeCullInput) : ℚ × ℚ :=
  let minPossibleDistance := inp.distV - inp.boundingSphereRadius
  if 1 < minPossibleDistance then
    (inp.brightestFarMag, inp.maxChildRadius / minPossibleDistance / inp.pixelSize)
  else
    (-100, 100)

/-- The planetshine influence-cone test for a subtree (render.cpp
5854-5862). -/
def subtreeShineCone (inp : SubtreeCullInput) : Prop :=
  let influenceRadius := inp.boundingSphereRadius +
    inp.maxChildRadius * PLANETSHINE_DISTANCE_LIMIT_FACTOR
  (-influenceRadius < inp.distVN) ∧
  inp.perpDistSq <
    ((influenceRadius + inp.distVN * inp.sinViewAngle) * inp.invCosViewAngle) *
    ((influenceRadius + inp.distVN * inp.sinViewAngle) * inp.invCosViewAngle)

instance (inp : SubtreeCullInput) : Decidable (subtreeShineCone inp) := by
  unfold subtreeShineCone
  infer_instance

/-- The subtree traversal decision of buildRenderLists (render.cpp
5797-5865), mirroring the imperative control flow: `traverseSubtree` is
set when the best-case object passes the magnitude-or-size test and the
subtree bounding sphere passes the full frustum test; failing that, a
subtree containing secondary illuminators is still traversed when it
passes the planetshine pixel-size limit and the influence-cone test. -/
def traverseSubtree (inp : SubtreeCullInput) : Bool :=
  let bl := subtreeBrightestLargest inp
  let t1 : Bool :=
    if bl.1 < inp.faintestPlanetMag ∨ 1 < bl.2 then
      !inp.frustumOutside
    else
      false
  let t2 : Bool :=
    if inp.containsSecondaryIlluminators = true ∧ t1 = false ∧
       PLANETSHINE_PIXEL_SIZE_LIMIT < bl.2 then
      decide (subtreeShineCone inp)
    else
      false
  t1 || t2

/-- The magnitude-or-angular-size test on the best-case subtree object
(render.cpp 5837). -/
def subtreeMagSizePasses (inp : SubtreeCullInput) : Prop :=
  (subtreeBrightestLargest inp).1 < inp.faintestPlanetMag ∨
  1 < (subtreeBrightestLargest inp).2

instance (inp : SubtreeCullInput) : Decidable (subtreeMagSizePasses inp) := by
  unfold subtreeMagSizePasses
  infer_instance

/-- The full view-frustum test on the subtree bounding sphere
(render.cpp 5840): passes when testSphere is not Outside. -/
def subtreeFrustumPasses (inp : SubtreeCullInput) : Prop :=
  inp.frustumOutside = false

/-- The planetshine plausibility condition (render.cpp 5850-5862)
without the already-decided short-circuit. -/
def subtreeShinePasses (inp : SubtreeCullInput) : Prop :=
  inp.containsSecondaryIlluminators = true ∧
  PLANETSHINE_PIXEL_SIZE_LIMIT < (subtreeBrightestLargest inp).2 ∧
  subtreeShineCone inp

instance (inp : SubtreeCullInput) : Decidable (subtreeShinePasses inp) := by
  unfold subtreeShinePasses
  infer_instance

/-! ### Eclipse testing (Renderer::testEclipse, render.cpp 4725-4869) -/

/-- The body attributes consulted by testEclipse. -/
structure BodyModel where
  radius : ℚ
  hasVisibleGeometry : Bool
  extant : Bool
  isEllipsoid : Bool
  hasRings : Bool
  ringsOuterRadius : ℚ
deriving DecidableEq

/-- Modelled from the spec: the scalar results of the external celmath
vector geometry at the given time — the caster-receiver center
distance, the distance from the receiver center to the shadow cylinder
axis (celmath distance to Ray3d), and the alignment dot product
lightToCasterDir . receiverToCasterDir. -/
structure EclipseGeom where
  distToCasterCenter : ℚ
  axisDist : ℚ
  dotAlign : ℚ
deriving DecidableEq

/-- EclipseShadow descriptor fields computed by testEclipse. -/
structure EclipseShadowM where
  penumbraRadius : ℚ
  umbraRadius : ℚ
  maxDepth : ℚ
deriving DecidableEq

/-- Result of one testEclipse call: the boolean return, the (possibly
extended) eclipse shadow list for the light, and whether the ring
shadow for the light was written. -/
structure TestEclipseResult where
  isReceiverShadowed : Bool
  shadows : List EclipseShadowM
  ringShadowSet : Bool
deriving DecidableEq

/-- The four preconditions guarding all shadow work in testEclipse
(render.cpp 4739-4742). -/
def eclipsePreconditions (receiver caster : BodyModel) : Prop :=
  receiver.radius * MinRelativeOccluderRadius ≤ caster.radius ∧
  caster.hasVisibleGeometry = true ∧
  caster.extant = true ∧
  caster.isEllipsoid = true

instance (receiver caster : BodyModel) :
    Decidable (eclipsePreconditions receiver caster) := by
  unfold eclipsePreconditions
  infer_instance

/-- Penumbra (shadow cylinder) radius (render.cpp 4762-4770). -/
def eclipseShadowRadius (receiver caster : BodyModel)
    (lightApparentSize : ℚ) (g : EclipseGeom) : ℚ :=
  let distToCaster := g.distToCasterCenter - receiver.radius
  let appOccluderRadius := caster.radius / distToCaster
  (1 + lightApparentSize / appOccluderRadius) * caster.radius

/-- Maximum shadow depth (render.cpp 4809): min(1, (occluder apparent
radius / sun apparent radius)^2). -/
def eclipseMaxDepth (receiver caster : BodyModel)
    (lightApparentSize : ℚ) (g : EclipseGeom) : ℚ :=
  let distToCaster := g.distToCasterCenter - receiver.radius
  let appOccluderRadius := caster.radius / distToCaster
  rmin 1 ((appOccluderRadius / lightApparentSize) *
         (appOccluderRadius / lightApparentSize))

/-- Renderer::testEclipse (render.cpp 4725-4869) over the body model
and the external geometry scalars: the guard, the capped-cylinder
containment test, the shadow descriptor push guarded by the 1/256
negligible-depth threshold, and the ring shadow write. -/
def testEclipse (receiver caster : BodyModel) (lightApparentSize : ℚ)
    (g : EclipseGeom) (shadows : List EclipseShadowM) : TestEclipseResult :=
  if eclipsePreconditions receiver caster then
    let distToCaster := g.distToCasterCenter - receiver.radius
    let appOccluderRadius := caster.radius / distToCaster
    let shadowRadius := eclipseShadowRadius receiver caster lightApparentSize g
    let bigR := receiver.radius + shadowRadius
    let inShadow : Bool := decide (g.axisDist < bigR) && decide (0 < g.dotAlign)
    let shadow : EclipseShadowM :=
      { penumbraRadius := shadowRadius,
        umbraRadius := caster.radius * (appOccluderRadius - lightApparentSize) /
          appOccluderRadius,
        maxDepth := eclipseMaxDepth receiver caster lightApparentSize g }
    let shadows' :=
      if inShadow = true ∧ (1 / 256 : ℚ) < shadow.maxDepth then
        shadows ++ [shadow]
      else
        shadows
    let ringShadowSet : Bool :=
      caster.hasRings &&
      decide (g.axisDist < caster.ringsOuterRadius + receiver.radius)
    { isReceiverShadowed := inShadow, shadows := shadows',
      ringShadowSet := ringShadowSet }
  else
    { isReceiverShadowed := false, shadows := shadows, ringShadowSet := false }

/-! ## Helper lemmas about rmax and rmin -/

theorem rmin_le_left (a b : ℚ) : rmin a b ≤ a := by
  unfold rmin
  split
  · exact le_of_lt (by assumption)
  · exact le_refl a

theorem rmin_le_right (a b : ℚ) : rmin a b ≤ b := by
  unfold rmin
  split
  · exact le_refl b
  · exact le_of_not_lt (by assumption)

theorem le_rmax_left (a b : ℚ) : a ≤ rmax a b := by
  unfold rmax
  split
  · exact le_of_lt (by assumption)
  · exact le_refl a

theorem le_rmax_right (a b : ℚ) : b ≤ rmax a b := by
  unfold rmax
  split
  · exact le_refl b
  · exact le_of_not_lt (by assumption)

theorem rmax_le {a b c : ℚ} (h1 : a ≤ c) (h2 : b ≤ c) : rmax a b ≤ c := by
  unfold rmax
  split
  · exact h2
  · exact h1

/-! ## General list helpers -/

theorem getLast?_structure {α : Type} {l : List α} {a : α}
    (h : l.getLast? = some a) : l = l.dropLast ++ [a] := by
  induction l with
  | nil => simp at h
  | cons b l ih =>
    cases l with
    | nil =>
      simp only [List.getLast?_singleton, Option.some.injEq] at h
      simp [h]
    | cons c l' =>
      rw [List.getLast?_cons_cons] at h
      have h2 := ih h
      show b :: (c :: l') = b :: (c :: l').dropLast ++ [a]
      rw [List.cons_append]
      exact congrArg (b :: ·) h2

theorem getLast?_cons_isSome {α : Type} (b : α) (t : List α) :
    ∃ a, (b :: t).getLast? = some a := by
  induction t generalizing b with
  | nil => exact ⟨b, by simp⟩
  | cons c t' ih =>
    obtain ⟨a, ha⟩ := ih c
    exact ⟨a, by rw [List.getLast?_cons_cons]; exact ha⟩

theorem chain'_snoc {α : Type} {R : α → α → Prop} {l : List α} {q : α}
    (hc : List.Chain' R l) (hq : ∀ p, l.getLast? = some p → R p q) :
    List.Chain' R (l ++ [q]) := by
  rw [List.chain'_append]
  refine ⟨hc, List.chain'_singleton _, ?_⟩
  intro x hx y hy
  simp only [List.head?_cons, Option.mem_def, Option.some.injEq] at hy
  subst hy
  exact hq x (Option.mem_def.mp hx)

/-! ## Depth partition gap-freeness (claim C1 machinery) -/

theorem partInv_newInterval (st : PartitionState) (e : RenderListEntryZ)
    (h : PartInv st) : PartInv (partitionNewInterval st e) := by
  obtain ⟨hchain, hlast⟩ := h
  unfold PartInv partitionNewInterval
  by_cases hfz : e.farZ = st.prevNear
  · rw [if_pos hfz]
    refine ⟨?_, ?_⟩
    · refine chain'_snoc hchain ?_
      intro p hp
      show e.farZ ≤ p.nearZ
      rw [hfz, hlast p hp]
    · intro p hp
      rw [List.getLast?_concat] at hp
      cases hp
      rfl
  · rw [if_neg hfz]
    refine ⟨?_, ?_⟩
    · refine chain'_snoc (chain'_snoc hchain ?_) ?_
      · intro p hp
        show st.prevNear ≤ p.nearZ
        rw [hlast p hp]
      · intro p hp
        rw [List.getLast?_concat] at hp
        cases hp
        exact le_refl _
    · intro p hp
      rw [List.getLast?_concat] at hp
      cases hp
      rfl

theorem partInv_step (st : PartitionState) (e : RenderListEntryZ)
    (h : PartInv st) : PartInv (partitionStep st e) := by
  unfold partitionStep
  by_cases hd : 1 < e.discSizeInPixels
  · rw [if_pos hd]
    cases hl : st.parts.getLast? with
    | none => exact partInv_newInterval st e h
    | some lastP =>
      dsimp only
      by_cases hc : lastP.nearZ ≤ e.farZ
      · rw [if_pos hc]
        exact partInv_newInterval st e h
      · rw [if_neg hc]
        obtain ⟨hchain, hlast⟩ := h
        have hsplit : st.parts = st.parts.dropLast ++ [lastP] := getLast?_structure hl
        rw [hsplit, List.chain'_append] at hchain
        obtain ⟨hcD, _, hlink⟩ := hchain
        unfold PartInv
        refine ⟨?_, ?_⟩
        · rw [hsplit, List.dropLast_concat]
          refine chain'_snoc hcD ?_
          intro p hp
          show rmin lastP.farZ e.farZ ≤ p.nearZ
          have hpl : gapFree p lastP := by
            refine hlink p (Option.mem_def.mpr hp) lastP ?_
            simp
          exact le_trans (rmin_le_left _ _) hpl
        · intro p hp
          rw [hsplit, List.dropLast_concat, List.getLast?_concat] at hp
          cases hp
          rfl
  · rw [if_neg hd]
    exact h

theorem partInv_foldl (l : List RenderListEntryZ) (st : PartitionState)
    (h : PartInv st) : PartInv (l.foldl partitionStep st) := by
  induction l generalizing st with
  | nil => exact h
  | cons e l ih => exact ih _ (partInv_step st e h)

theorem partInv_partitionScan (rl : List RenderListEntryZ) :
    PartInv (partitionScan rl) := by
  refine partInv_foldl _ _ ⟨List.chain'_nil, ?_⟩
  intro p hp
  simp at hp

theorem adjust_chain' {R : DepthBufferPartition → DepthBufferPartition → Prop}
    (hR : ∀ p q z, R p q → R { p with farZ := z } q)
    (op : List OrbitPathZ) (parts : List DepthBufferPartition)
    (h : List.Chain' R parts) :
    List.Chain' R (adjustFarthestForOrbit op parts) := by
  unfold adjustFarthestForOrbit
  cases op.getLast? with
  | none => exact h
  | some o =>
    cases parts with
    | nil => exact List.chain'_nil
    | cons p0 rest =>
      rw [List.chain'_cons'] at h ⊢
      exact ⟨fun y hy => hR _ _ _ (h.1 y hy), h.2⟩

/-- Claim C1 (confirmed).  Depth partition gap-freeness: for every
render list, orbit path list and marker bound, the sequence of
DepthBufferPartition intervals produced by draw's partitioning stage —
fillers, object intervals (with expansion), the final frontmost
interval, and the orbit far-extension — satisfies, for every pair of
consecutive intervals in construction order,
`interval[i].farZ <= interval[i-1].nearZ`: consecutive intervals are
disjoint or touching in signed camera-space depth, with no uncovered
gap, though an expanded interval may overlap its predecessor. -/
theorem depthPartitions_gap_free (rl : List RenderListEntryZ)
    (op : List OrbitPathZ) (ann : Option ℚ) :
    List.Chain' gapFree (buildDepthPartitions rl op ann) := by
  unfold buildDepthPartitions
  obtain ⟨hchain, hlast⟩ := partInv_partitionScan rl
  refine adjust_chain' (fun p q z hpq => hpq) _ _ ?_
  refine chain'_snoc hchain ?_
  intro p hp
  show (partitionScan rl).prevNear ≤ p.nearZ
  rw [hlast p hp]

/-! ## Depth partition sign and ordering (claim C9 machinery) -/

theorem getLast?_mem {α : Type} {l : List α} {a : α}
    (h : l.getLast? = some a) : a ∈ l := by
  rw [getLast?_structure h]
  simp

theorem head?_mem {α : Type} {l : List α} {a : α}
    (h : l.head? = some a) : a ∈ l := by
  cases l with
  | nil => simp at h
  | cons b t =>
    simp only [List.head?_cons, Option.some.injEq] at h
    subst h
    exact List.mem_cons_self _ _

theorem partInvB_newInterval (N : ℚ) (st : PartitionState) (e : RenderListEntryZ)
    (hB : PartInvB N st)
    (hlastNear : ∀ p, st.parts.getLast? = some p → p.nearZ ≤ e.farZ)
    (he1 : e.farZ ≤ e.nearZ) (he2 : e.nearZ ≤ 0) (he3 : e.nearZ ≤ N) :
    PartInvB N (partitionNewInterval st e) := by
  obtain ⟨hvals, hpn0, hpnN, hchain, hhead⟩ := hB
  have hfz0 : e.farZ ≤ 0 := le_trans he1 he2
  unfold PartInvB partitionNewInterval
  by_cases hfz : e.farZ = st.prevNear
  · rw [if_pos hfz]
    refine ⟨?_, he2, he3, ?_, ?_⟩
    · intro p hp
      rcases List.mem_append.mp hp with h | h
      · exact hvals p h
      · rcases List.mem_singleton.mp h with rfl
        exact ⟨he2, hfz0⟩
    · refine chain'_snoc hchain ?_
      intro p hp
      exact le_trans (hlastNear p hp) he1
    · cases hsp : st.parts with
      | nil =>
        intro p hp
        simp only [hsp, List.nil_append, List.head?_cons, Option.some.injEq] at hp
        subst hp
        simp [hsp]
      | cons q qs =>
        intro p hp
        simp only [hsp, List.cons_append, List.head?_cons, Option.some.injEq] at hp
        subst hp
        exact hhead _ (by rw [hsp]; rfl)
  · rw [if_neg hfz]
    refine ⟨?_, he2, he3, ?_, ?_⟩
    · intro p hp
      rcases List.mem_append.mp hp with h | h
      · rcases List.mem_append.mp h with h2 | h2
        · exact hvals p h2
        · rcases List.mem_singleton.mp h2 with rfl
          exact ⟨hfz0, hpn0⟩
      · rcases List.mem_singleton.mp h with rfl
        exact ⟨he2, hfz0⟩
    · refine chain'_snoc (chain'_snoc hchain ?_) ?_
      · intro p hp
        exact hlastNear p hp
      · intro p hp
        rw [List.getLast?_concat] at hp
        cases hp
        exact he1
    · cases hsp : st.parts with
      | nil =>
        intro p hp
        simp only [hsp, List.nil_append, List.cons_append, List.head?_cons,
          Option.some.injEq] at hp
        subst hp
        simp [hsp]
      | cons q qs =>
        intro p hp
        simp only [hsp, List.cons_append, List.head?_cons, Option.some.injEq] at hp
        subst hp
        exact hhead _ (by rw [hsp]; rfl)

theorem partInvB_step (N : ℚ) (st : PartitionState) (e : RenderListEntryZ)
    (hinv : PartInv st) (hB : PartInvB N st)
    (he1 : e.farZ ≤ e.nearZ) (he2 : e.nearZ ≤ 0) (he3 : e.nearZ ≤ N) :
    PartInvB N (partitionStep st e) := by
  unfold partitionStep
  by_cases hd : 1 < e.discSizeInPixels
  · rw [if_pos hd]
    cases hl : st.parts.getLast? with
    | none =>
      refine partInvB_newInterval N st e hB ?_ he1 he2 he3
      intro p hp
      rw [hl] at hp
      cases hp
    | some lastP =>
      dsimp only
      by_cases hc : lastP.nearZ ≤ e.farZ
      · rw [if_pos hc]
        refine partInvB_newInterval N st e hB ?_ he1 he2 he3
        intro p hp
        rw [hl] at hp
        cases hp
        exact hc
      · rw [if_neg hc]
        obtain ⟨hvals, hpn0, hpnN, hchain, hhead⟩ := hB
        have hmem : lastP ∈ st.parts := getLast?_mem hl
        have hsplit : st.parts = st.parts.dropLast ++ [lastP] := getLast?_structure hl
        rw [hsplit, List.chain'_append] at hchain
        obtain ⟨hcD, _, hlink⟩ := hchain
        unfold PartInvB
        refine ⟨?_, ?_, ?_, ?_, ?_⟩
        · intro p hp
          rcases List.mem_append.mp hp with h | h
          · exact hvals p (List.dropLast_subset _ h)
          · rcases List.mem_singleton.mp h with rfl
            refine ⟨rmax_le (hvals lastP hmem).1 he2, ?_⟩
            exact le_trans (rmin_le_left _ _) (hvals lastP hmem).2
        · exact rmax_le (hvals lastP hmem).1 he2
        · refine rmax_le ?_ he3
          rw [hinv.2 lastP hl]
          exact hpnN
        · refine chain'_snoc hcD ?_
          intro p hp
          have hpl : nearOrder p lastP := by
            refine hlink p (Option.mem_def.mpr hp) lastP ?_
            simp
          exact le_trans hpl (le_rmax_left _ _)
        · cases hsp : st.parts.dropLast with
          | nil =>
            intro p hp
            simp only [hsp, List.nil_append, List.head?_cons, Option.some.injEq] at hp
            subst hp
            show lastP.index = 0
            refine hhead lastP ?_
            rw [hsplit, hsp]
            rfl
          | cons q qs =>
            intro p hp
            simp only [hsp, List.cons_append, List.head?_cons, Option.some.injEq] at hp
            subst hp
            refine hhead _ ?_
            rw [hsplit, hsp]
            rfl
  · rw [if_neg hd]
    exact ⟨hB.1, hB.2.1, hB.2.2.1, hB.2.2.2.1, hB.2.2.2.2⟩

theorem partInvB_foldl (N : ℚ) (l : List RenderListEntryZ) (st : PartitionState)
    (hl : ∀ e ∈ l, e.farZ ≤ e.nearZ ∧ e.nearZ ≤ 0 ∧ e.nearZ ≤ N)
    (hinv : PartInv st) (hB : PartInvB N st) :
    PartInvB N (l.foldl partitionStep st) := by
  induction l generalizing st with
  | nil => exact hB
  | cons e l ih =>
    refine ih _ (fun x hx => hl x (List.mem_cons_of_mem _ hx))
      (partInv_step st e hinv) ?_
    have he := hl e (List.mem_cons_self _ _)
    exact partInvB_step N st e hinv hB he.1 he.2.1 he.2.2

theorem zNearestOrbits_nonpos (op : List OrbitPathZ) (z0 : ℚ) (h : z0 ≤ 0) :
    zNearestOrbits op z0 ≤ 0 := by
  induction op generalizing z0 with
  | nil => exact h
  | cons o op ih =>
    unfold zNearestOrbits at ih ⊢
    rw [List.foldl_cons]
    refine ih _ ?_
    dsimp only
    split
    · refine le_trans (rmin_le_left _ _) ?_
      unfold MinNearPlaneDistance
      norm_num
    · exact h

theorem zNearestMarkers_nonpos (ann : Option ℚ) (z : ℚ)
    (hann : ann.getD 0 ≤ 0) (hz : z ≤ 0) :
    zNearestMarkers ann z ≤ 0 := by
  cases ann with
  | none => exact hz
  | some a =>
    simp only [Option.getD_some] at hann
    show (if z < a then a * (999 / 1000) else z) ≤ 0
    split
    · nlinarith
    · exact hz

theorem zNearestBound_nonpos (op : List OrbitPathZ) (ann : Option ℚ) (pn : ℚ)
    (hann : ann.getD 0 ≤ 0) (hpn : pn ≤ 0) :
    zNearestBound op ann pn ≤ 0 := by
  unfold zNearestBound
  split
  · exact le_refl 0
  · exact zNearestMarkers_nonpos ann _ hann (zNearestOrbits_nonpos op pn hpn)

theorem closestBound_nonpos (rl : List RenderListEntryZ) (op : List OrbitPathZ)
    (ann : Option ℚ) (st : PartitionState)
    (hann : ann.getD 0 ≤ 0) (hpn0 : st.prevNear ≤ 0)
    (hent0 : ∀ e0, rl.head? = some e0 → e0.nearZ ≤ 0) :
    closestBound rl op ann st ≤ 0 := by
  unfold closestBound
  cases hh : rl.head? with
  | none => exact zNearestBound_nonpos op ann _ hann hpn0
  | some e0 =>
    have he0 := hent0 e0 hh
    dsimp only
    split
    · nlinarith
    · exact rmax_le (zNearestBound_nonpos op ann _ hann hpn0) he0

theorem adjust_mem_bounds (op : List OrbitPathZ)
    (parts : List DepthBufferPartition)
    (h : ∀ p ∈ parts, p.nearZ ≤ 0 ∧ p.farZ ≤ 0) :
    ∀ p ∈ adjustFarthestForOrbit op parts, p.nearZ ≤ 0 ∧ p.farZ ≤ 0 := by
  unfold adjustFarthestForOrbit
  cases op.getLast? with
  | none => exact h
  | some o =>
    cases parts with
    | nil => intro p hp; cases hp
    | cons p0 rest =>
      intro p hp
      rcases List.mem_cons.mp hp with rfl | hmem
      · have h0 := h p0 (List.mem_cons_self _ _)
        exact ⟨h0.1, le_trans (rmin_le_left _ _) h0.2⟩
      · exact h p (List.mem_cons_of_mem _ hmem)

theorem adjust_head_index (op : List OrbitPathZ)
    (parts : List DepthBufferPartition)
    (h : ∀ p, parts.head? = some p → p.index = 0) :
    ∀ p, (adjustFarthestForOrbit op parts).head? = some p → p.index = 0 := by
  unfold adjustFarthestForOrbit
  cases op.getLast? with
  | none => exact h
  | some o =>
    cases parts with
    | nil => intro p hp; cases hp
    | cons p0 rest =>
      intro p hp
      simp only [List.head?_cons, Option.some.injEq] at hp
      subst hp
      exact h p0 rfl

theorem adjust_length (op : List OrbitPathZ)
    (parts : List DepthBufferPartition) :
    (adjustFarthestForOrbit op parts).length = parts.length := by
  unfold adjustFarthestForOrbit
  cases op.getLast? with
  | none => rfl
  | some o =>
    cases parts with
    | nil => rfl
    | cons p0 rest => rfl

/-- Claim C9, amended (corrected).  The interval carrying index 0 is
the first-constructed interval of the back-to-front scan, not in
general the nearest one (the counterexample exhibits it strictly
farther, by near bound, than the last-constructed interval; the
source's own TODO at render.cpp 3278-3279 concedes the front interval
can even end up beyond the frontier, since the list is sorted by far
bound, not by near bound).  The stored near and far bounds are
nonpositive signed camera-space z values for every render list whose
culled entries lie in front of the camera (farZ <= nearZ <= 0, markers
at nonpositive z); the positive clip distances used by the projection
are their negations, taken at use (render.cpp 3326-3327). -/
theorem depthPartitions_sign_and_order (rl : List RenderListEntryZ)
    (op : List OrbitPathZ) (ann : Option ℚ)
    (hent : ∀ e ∈ rl, e.farZ ≤ e.nearZ ∧ e.nearZ ≤ 0)
    (hann : ann.getD 0 ≤ 0) :
    (∀ p ∈ buildDepthPartitions rl op ann, p.nearZ ≤ 0 ∧ p.farZ ≤ 0) ∧
    (∀ p, (buildDepthPartitions rl op ann).head? = some p → p.index = 0) := by
  have hinit : PartInvB 0 { parts := [], prevNear := initialPrevNear rl } := by
    have hpn : initialPrevNear rl ≤ 0 := by
      unfold initialPrevNear
      cases hL : rl.getLast? with
      | none => norm_num
      | some eL =>
        have hmem := getLast?_mem hL
        have h1 := (hent eL hmem).1
        have h2 := (hent eL hmem).2
        dsimp only
        nlinarith
    refine ⟨?_, hpn, hpn, List.chain'_nil, ?_⟩
    · intro p hp; cases hp
    · intro p hp; cases hp
  have hB : PartInvB 0 (partitionScan rl) := by
    refine partInvB_foldl 0 _ _ ?_ ⟨List.chain'_nil, by intro p hp; cases hp⟩ hinit
    intro e he
    rw [List.mem_reverse] at he
    exact ⟨(hent e he).1, (hent e he).2, (hent e he).2⟩
  obtain ⟨hvals, hpn0, _, _, hhd⟩ := hB
  have hclosest : closestBound rl op ann (partitionScan rl) ≤ 0 :=
    closestBound_nonpos rl op ann _ hann hpn0
      (fun e0 hh => (hent e0 (head?_mem hh)).2)
  unfold buildDepthPartitions
  refine ⟨?_, ?_⟩
  · refine adjust_mem_bounds _ _ ?_
    intro p hp
    rcases List.mem_append.mp hp with h | h
    · exact hvals p h
    · rcases List.mem_singleton.mp h with rfl
      exact ⟨hclosest, hpn0⟩
  · refine adjust_head_index _ _ ?_
    cases hsp : (partitionScan rl).parts with
    | nil =>
      intro p hp
      simp only [hsp, List.nil_append, List.head?_cons, Option.some.injEq] at hp
      subst hp
      simp [hsp]
    | cons q qs =>
      intro p hp
      simp only [hsp, List.cons_append, List.head?_cons, Option.some.injEq] at hp
      subst hp
      exact hhd _ (by rw [hsp]; rfl)

/-- Claim C9 witness: the sign/index theorem applied to a concrete
front-to-back sorted render list with camera-space entries. -/
theorem depthPartitions_sign_and_order_witness :
    ((∀ e ∈ [({ nearZ := -1, farZ := -2, discSizeInPixels := 3 } : RenderListEntryZ),
        { nearZ := -10, farZ := -20, discSizeInPixels := 3 }],
        e.farZ ≤ e.nearZ ∧ e.nearZ ≤ 0) ∧
      ((none : Option ℚ).getD 0 ≤ 0)) ∧
    ((∀ p ∈ buildDepthPartitions
        [{ nearZ := -1, farZ := -2, discSizeInPixels := 3 },
         { nearZ := -10, farZ := -20, discSizeInPixels := 3 }] [] none,
        p.nearZ ≤ 0 ∧ p.farZ ≤ 0) ∧
      (∀ p, (buildDepthPartitions
        [{ nearZ := -1, farZ := -2, discSizeInPixels := 3 },
         { nearZ := -10, farZ := -20, discSizeInPixels := 3 }] [] none).head? =
          some p → p.index = 0)) :=
  ⟨⟨by decide, by decide⟩,
    depthPartitions_sign_and_order
      [{ nearZ := -1, farZ := -2, discSizeInPixels := 3 },
       { nearZ := -10, farZ := -20, discSizeInPixels := 3 }] [] none
      (by decide) (by decide)⟩

/-! ## Equal depth-range allocation (claim C7) -/

theorem buildDepthPartitions_length_pos (rl : List RenderListEntryZ)
    (op : List OrbitPathZ) (ann : Option ℚ) :
    1 ≤ (buildDepthPartitions rl op ann).length := by
  unfold buildDepthPartitions
  rw [adjust_length]
  rw [List.length_append]
  simp

/-- Claim C7 (confirmed).  Equal depth-range allocation: draw always
produces n >= 1 depth partitions, and each interval i < n is assigned
the depth-buffer slice [1-(i+1)/n, 1-i/n] of size exactly 1/n, in
far-to-near order: the first-constructed (farthest) interval 0 receives
[1-1/n, 1] and the last-constructed (nearest) interval n-1 receives
[0, 1/n]. -/
theorem intervalDepthRange_equal_slices (rl : List RenderListEntryZ)
    (op : List OrbitPathZ) (ann : Option ℚ) :
    1 ≤ (buildDepthPartitions rl op ann).length ∧
    (∀ i, i < (buildDepthPartitions rl op ann).length →
      (intervalDepthRange (buildDepthPartitions rl op ann).length i).2 -
        (intervalDepthRange (buildDepthPartitions rl op ann).length i).1 =
        1 / ((buildDepthPartitions rl op ann).length : ℚ)) ∧
    intervalDepthRange (buildDepthPartitions rl op ann).length 0 =
      (1 - 1 / ((buildDepthPartitions rl op ann).length : ℚ), 1) ∧
    intervalDepthRange (buildDepthPartitions rl op ann).length
        ((buildDepthPartitions rl op ann).length - 1) =
      (0, 1 / ((buildDepthPartitions rl op ann).length : ℚ)) := by
  have hn := buildDepthPartitions_length_pos rl op ann
  set n := (buildDepthPartitions rl op ann).length with hndef
  have hmax : Nat.max 1 n = n := Nat.max_eq_right hn
  have hn0 : (n : ℚ) ≠ 0 := by
    have : 0 < n := hn
    positivity
  refine ⟨hn, ?_, ?_, ?_⟩
  · intro i _
    unfold intervalDepthRange
    rw [hmax]
    push_cast
    field_simp
  · unfold intervalDepthRange
    rw [hmax]
    refine Prod.ext ?_ ?_
    · push_cast
      field_simp
    · push_cast
      field_simp
  · unfold intervalDepthRange
    rw [hmax]
    refine Prod.ext ?_ ?_
    · push_cast [Nat.cast_sub hn]
      field_simp
    · push_cast [Nat.cast_sub hn]
      field_simp

/-- Claim C7 witness: the allocation theorem applied to the empty
scene, whose single interval receives the whole depth range. -/
theorem intervalDepthRange_equal_slices_witness :
    1 ≤ (buildDepthPartitions [] [] none).length ∧
    (intervalDepthRange (buildDepthPartitions [] [] none).length 0).2 -
      (intervalDepthRange (buildDepthPartitions [] [] none).length 0).1 =
      1 / ((buildDepthPartitions [] [] none).length : ℚ) :=
  ⟨(intervalDepthRange_equal_slices [] [] none).1,
    (intervalDepthRange_equal_slices [] [] none).2.1 0
      (by decide)⟩

/-- Claim C8 (confirmed).  Empty-scene degenerate partition: with an
empty render list (and no orbit paths or markers) the partitioning
stage still produces exactly one interval, reaching from a near bound
of zero out to the default far distance of 10^12 (about one light
year, stored as camera-space z = -(10^12)). -/
theorem emptyScene_single_interval :
    buildDepthPartitions [] [] none =
      [{ index := 0, nearZ := 0, farZ := -(10 ^ 12 : ℚ) }] := by
  decide

set_option maxRecDepth 8000 in
/-- Claim C9 counterexample.  For the front-to-back sorted two-entry
render list below, the partition carrying index 0 is the farthest
interval, strictly farther than the last-constructed one, and its
stored far bound is negative: the claim that index 0 is the nearest
interval and that the stored near/far clip distances are positive fails
on this input. -/
theorem depthPartition_index_sign_counterexample :
    ((buildDepthPartitions
        [{ nearZ := -1, farZ := -2, discSizeInPixels := 3 },
         { nearZ := -10, farZ := -20, discSizeInPixels := 3 }] [] none).headD
      { index := 0, nearZ := 0, farZ := 0 }).index = 0 ∧
    ((buildDepthPartitions
        [{ nearZ := -1, farZ := -2, discSizeInPixels := 3 },
         { nearZ := -10, farZ := -20, discSizeInPixels := 3 }] [] none).headD
      { index := 0, nearZ := 0, farZ := 0 }).nearZ <
      ((buildDepthPartitions
        [{ nearZ := -1, farZ := -2, discSizeInPixels := 3 },
         { nearZ := -10, farZ := -20, discSizeInPixels := 3 }] [] none).getLastD
      { index := 0, nearZ := 0, farZ := 0 }).nearZ ∧
    ((buildDepthPartitions
        [{ nearZ := -1, farZ := -2, discSizeInPixels := 3 },
         { nearZ := -10, farZ := -20, discSizeInPixels := 3 }] [] none).headD
      { index := 0, nearZ := 0, farZ := 0 }).farZ < 0 := by
  with_unfolding_all decide

/-! ## Orbit sample cache window (claims C2, C3) -/

theorem exists_getLast?_of_ne_nil {α : Type} {l : List α} (h : l ≠ []) :
    ∃ a, l.getLast? = some a := by
  cases l with
  | nil => exact absurd rfl h
  | cons b t => exact getLast?_cons_isSome b t

theorem plotEndTime_getLast? {xs : List ℚ} {m : ℚ} (hm : xs.getLast? = some m) :
    plotEndTime xs = m := by
  unfold plotEndTime
  rw [List.getLastD_eq_getLast?, hm]
  rfl

theorem sorted_le_getLast {xs : List ℚ} (hs : List.Sorted (· < ·) xs) {m : ℚ}
    (hm : xs.getLast? = some m) : ∀ x ∈ xs, x ≤ m := by
  have hsplit := getLast?_structure hm
  rw [hsplit, List.Sorted, List.pairwise_append] at hs
  intro x hx
  rw [hsplit] at hx
  rcases List.mem_append.mp hx with h | h
  · exact le_of_lt (hs.2.2 x h m (List.mem_singleton.mpr rfl))
  · rcases List.mem_singleton.mp h with rfl
    exact le_refl _

theorem rmax_eq_left {a b : ℚ} (h : b ≤ a) : rmax a b = a := by
  unfold rmax
  rw [if_neg (not_lt.mpr h)]

/-- Claim C3 (confirmed).  Orbit cache idempotence: on a cache hit
whose desired display window `[t + (OrbitWindowEnd -
OrbitPeriodsShown)*T, t + OrbitWindowEnd*T]` still lies inside the
cached window, the renderOrbit window update performs neither trimming
nor resampling, so the cached sample set is returned untouched and a
second call at the same simulation time leaves it bit-identical. -/
theorem renderOrbit_cache_hit_idempotent
    (sample : ℚ → ℚ → List ℚ) (period owe ops t : ℚ) (xs : List ℚ)
    (h1 : ¬ displayWindowStart period owe ops t < plotStartTime xs)
    (h2 : ¬ plotEndTime xs < displayWindowEnd period owe t) :
    updateOrbitWindow sample period owe ops t xs = xs ∧
    renderOrbitSamples sample period owe ops t (some xs) = xs ∧
    renderOrbitSamples sample period owe ops t
        (some (renderOrbitSamples sample period owe ops t (some xs))) =
      renderOrbitSamples sample period owe ops t (some xs) := by
  have hupd : updateOrbitWindow sample period owe ops t xs = xs := by
    unfold updateOrbitWindow
    dsimp only
    rw [if_neg h1, if_neg (not_lt.mpr (not_lt.mp h2))]
  have hrs : renderOrbitSamples sample period owe ops t (some xs) = xs := by
    unfold renderOrbitSamples
    dsimp only
    by_cases hxs : xs = []
    · rw [if_pos hxs]
    · rw [if_neg hxs]
      exact hupd
  exact ⟨hupd, hrs, by rw [hrs, hrs]⟩

/-- Claim C3 witness: a cached window [0,2] with period 1, window end
0.5, periods shown 1 queried at t = 3/2 (display window [1,2]) is a
no-op hit, twice in a row. -/
theorem renderOrbit_cache_hit_idempotent_witness :
    (¬ displayWindowStart 1 (1 / 2) 1 (3 / 2) < plotStartTime [0, 1, 2] ∧
     ¬ plotEndTime [0, 1, 2] < displayWindowEnd 1 (1 / 2) (3 / 2)) ∧
    (updateOrbitWindow sampleLin 1 (1 / 2) 1 (3 / 2) [0, 1, 2] = [0, 1, 2] ∧
     renderOrbitSamples sampleLin 1 (1 / 2) 1 (3 / 2) (some [0, 1, 2]) = [0, 1, 2] ∧
     renderOrbitSamples sampleLin 1 (1 / 2) 1 (3 / 2)
        (some (renderOrbitSamples sampleLin 1 (1 / 2) 1 (3 / 2) (some [0, 1, 2]))) =
       renderOrbitSamples sampleLin 1 (1 / 2) 1 (3 / 2) (some [0, 1, 2])) :=
  ⟨⟨by with_unfolding_all decide, by with_unfolding_all decide⟩,
   renderOrbit_cache_hit_idempotent sampleLin 1 (1 / 2) 1 (3 / 2) [0, 1, 2]
     (by with_unfolding_all decide) (by with_unfolding_all decide)⟩

/-- Claim C2 (confirmed).  Orbit window sliding, forward case: when the
desired display window has slid forward past the cached window's end
(but not backward past its start) and still overlaps it, the update
keeps exactly the cached samples at or after the new window start
(display start minus the 20%-of-period slack) and before the old window
end, and appends exactly the newly sampled points from the old window
end out to the new window end plus slack — the retained samples are
kept verbatim and nothing else is resampled.  (The cached sample at
exactly the old window end is replaced by the identical first new
sample, the source's duplicated-boundary trim.)  The second and third
conjuncts restate retention and append-only membership. -/
theorem renderOrbit_slide_forward
    (sample : ℚ → ℚ → List ℚ) (period owe ops t : ℚ) (xs : List ℚ)
    (hne : xs ≠ [])
    (hsorted : List.Sorted (· < ·) xs)
    (hfwd1 : ¬ displayWindowStart period owe ops t < plotStartTime xs)
    (hfwd2 : plotEndTime xs < displayWindowEnd period owe t)
    (hover : displayWindowStart period owe ops t - period * WindowSlack ≤ plotEndTime xs)
    (hpos : 0 < plotEndTime xs)
    (htrim : ∀ x ∈ xs, x ≠ plotEndTime xs → x ≤ plotEndTime xs * (1 - TrimEps)) :
    updateOrbitWindow sample period owe ops t xs =
      xs.filter (fun x =>
        decide (displayWindowStart period owe ops t - period * WindowSlack ≤ x) &&
        decide (x < plotEndTime xs)) ++
      sample (plotEndTime xs) (displayWindowEnd period owe t + period * WindowSlack) ∧
    (∀ x ∈ xs, displayWindowStart period owe ops t - period * WindowSlack ≤ x →
      x < plotEndTime xs → x ∈ updateOrbitWindow sample period owe ops t xs) ∧
    (∀ y ∈ updateOrbitWindow sample period owe ops t xs,
      y ∈ xs ∨
      y ∈ sample (plotEndTime xs) (displayWindowEnd period owe t + period * WindowSlack)) := by
  obtain ⟨m, hm⟩ := exists_getLast?_of_ne_nil hne
  have hcwe : plotEndTime xs = m := plotEndTime_getLast? hm
  have hsplit := getLast?_structure hm
  have hmemm : m ∈ xs := getLast?_mem hm
  have hlemax := sorted_le_getLast hsorted hm
  have heps : (0 : ℚ) < TrimEps := by
    unfold TrimEps
    norm_num
  have hmlt : m * (1 - TrimEps) < m := by
    rw [hcwe] at hpos
    nlinarith
  have hnwsm : displayWindowStart period owe ops t - period * WindowSlack ≤ m := by
    rw [← hcwe]
    exact hover
  have hxs1 : removeSamplesBefore
      (displayWindowStart period owe ops t - period * WindowSlack) xs =
      (xs.dropLast.filter fun x =>
        decide (displayWindowStart period owe ops t - period * WindowSlack ≤ x)) ++ [m] := by
    unfold removeSamplesBefore
    conv_lhs => rw [hsplit]
    rw [List.filter_append]
    congr 1
    simp only [List.filter_cons, List.filter_nil]
    rw [if_pos (decide_eq_true hnwsm)]
  have hend1 : plotEndTime (removeSamplesBefore
      (displayWindowStart period owe ops t - period * WindowSlack) xs) = m := by
    rw [hxs1]
    exact plotEndTime_getLast? (List.getLast?_concat _)
  have hxs2 : removeSamplesAfter (m * (1 - TrimEps))
      (removeSamplesBefore
        (displayWindowStart period owe ops t - period * WindowSlack) xs) =
      xs.filter (fun x =>
        decide (displayWindowStart period owe ops t - period * WindowSlack ≤ x) &&
        decide (x < m)) := by
    unfold removeSamplesAfter removeSamplesBefore
    rw [List.filter_filter]
    refine List.filter_congr ?_
    intro x hx
    rcases Bool.eq_false_or_eq_true
      (decide (displayWindowStart period owe ops t - period * WindowSlack ≤ x)) with hd | hd
    · rw [hd]
      simp only [Bool.true_and, Bool.and_true]
      rw [decide_eq_decide]
      constructor
      · intro hle
        exact lt_of_le_of_lt hle hmlt
      · intro hlt
        have hxne : x ≠ plotEndTime xs := by
          rw [hcwe]
          exact ne_of_lt hlt
        have hx2 := htrim x hx hxne
        rw [hcwe] at hx2
        exact hx2
    · rw [hd]
      simp
  have hmain : updateOrbitWindow sample period owe ops t xs =
      xs.filter (fun x =>
        decide (displayWindowStart period owe ops t - period * WindowSlack ≤ x) &&
        decide (x < plotEndTime xs)) ++
      sample (plotEndTime xs) (displayWindowEnd period owe t + period * WindowSlack) := by
    unfold updateOrbitWindow
    dsimp only
    rw [if_neg hfwd1, if_pos hfwd2]
    rw [hend1, hxs2, hcwe, rmax_eq_left hnwsm]
  refine ⟨hmain, ?_, ?_⟩
  · intro x hx hge hlt
    rw [hmain]
    refine List.mem_append_left _ ?_
    refine List.mem_filter.mpr ⟨hx, ?_⟩
    simp [hge, hlt]
  · intro y hy
    rw [hmain] at hy
    rcases List.mem_append.mp hy with h | h
    · exact Or.inl (List.mem_filter.mp h).1
    · exact Or.inr h

/-- Claim C2 witness, following the spec's scenario with period 100,
window end 0.5, periods shown 1: the first query at t = 0 leaves a
cached window containing [-50, 50]; the second query at t = 60 retains
the cached sample 35 from [10, 50], covers the display window out to
110, and the slide theorem applied to the sorted cache [-50, 35, 70]
at t = 60 keeps exactly the samples in [-10, 70) and appends exactly
the new samples over [70, 130]. -/
theorem renderOrbit_slide_forward_witness :
    (plotStartTime (renderOrbitSamples sampleLin 100 (1 / 2) 1 0 none) ≤ -50 ∧
     50 ≤ plotEndTime (renderOrbitSamples sampleLin 100 (1 / 2) 1 0 none) ∧
     (35 : ℚ) ∈ renderOrbitSamples sampleLin 100 (1 / 2) 1 60
       (some (renderOrbitSamples sampleLin 100 (1 / 2) 1 0 none)) ∧
     110 ≤ plotEndTime (renderOrbitSamples sampleLin 100 (1 / 2) 1 60
       (some (renderOrbitSamples sampleLin 100 (1 / 2) 1 0 none)))) ∧
    (updateOrbitWindow sampleLin 100 (1 / 2) 1 60 [-50, 35, 70] =
      List.filter (fun x =>
        decide (displayWindowStart 100 (1 / 2) 1 60 - 100 * WindowSlack ≤ x) &&
        decide (x < plotEndTime [-50, 35, 70])) [-50, 35, 70] ++
      sampleLin (plotEndTime [-50, 35, 70])
        (displayWindowEnd 100 (1 / 2) 60 + 100 * WindowSlack) ∧
     (∀ x ∈ [(-50 : ℚ), 35, 70],
        displayWindowStart 100 (1 / 2) 1 60 - 100 * WindowSlack ≤ x →
        x < plotEndTime [-50, 35, 70] →
        x ∈ updateOrbitWindow sampleLin 100 (1 / 2) 1 60 [-50, 35, 70]) ∧
     (∀ y ∈ updateOrbitWindow sampleLin 100 (1 / 2) 1 60 [-50, 35, 70],
        y ∈ [(-50 : ℚ), 35, 70] ∨
        y ∈ sampleLin (plotEndTime [-50, 35, 70])
          (displayWindowEnd 100 (1 / 2) 60 + 100 * WindowSlack))) :=
  ⟨⟨by with_unfolding_all decide, by with_unfolding_all decide,
     by with_unfolding_all decide, by with_unfolding_all decide⟩,
   renderOrbit_slide_forward sampleLin 100 (1 / 2) 1 60 [-50, 35, 70]
     (by with_unfolding_all decide) (by with_unfolding_all decide)
     (by with_unfolding_all decide) (by with_unfolding_all decide)
     (by with_unfolding_all decide) (by with_unfolding_all decide)
     (by with_unfolding_all decide)⟩

/-! ## Orbit cache eviction (claim C4) -/

theorem cacheLookup_mem {c : List (ℕ × ℕ)} {e : ℕ × ℕ} (he : e ∈ c) :
    cacheLookup e.1 c = true := by
  unfold cacheLookup
  rw [List.any_eq_true]
  exact ⟨e, he, by simp⟩

theorem cacheLookup_setLastUsed (k id fc : ℕ) (c : List (ℕ × ℕ)) :
    cacheLookup k (setLastUsed id fc c) = cacheLookup k c := by
  unfold cacheLookup setLastUsed
  rw [List.any_map]
  congr 1
  funext e
  by_cases h : e.1 = id
  · simp [Function.comp, h]
  · simp [Function.comp, h]

/-- Claim C4, amended (corrected).  Eviction discipline of the orbit
cache step performed by each renderOrbit call: (a) an orbit key present
in the cache disappears only when the cache held more than 200 entries,
the entry's age exceeded 16 frames, and no eviction scan had yet run
this frame; (b) once the flush marker equals the current frame, no key
is removed (the scan runs at most once per frame); (c) a scan records
the current frame in the flush marker; (d) right after a scan every
entry, including the fresh insertion, has age at most 16 frames; and
(e) each call grows the cache by at most one entry.  No bound of the
form "200 plus insertions since the last scan" holds: the scan removes
nothing when all entries are fresh (see the counterexample). -/
theorem orbitCache_eviction_discipline (st : OrbitCacheState) (id : ℕ) :
    (∀ e ∈ st.cache,
      cacheLookup e.1 (renderOrbitCacheStep st id).cache = false →
      OrbitCacheCullThreshold < st.cache.length ∧
      OrbitCacheRetireAge < st.frameCount - e.2 ∧
      st.lastOrbitCacheFlush ≠ st.frameCount) ∧
    (st.lastOrbitCacheFlush = st.frameCount →
      ∀ e ∈ st.cache, cacheLookup e.1 (renderOrbitCacheStep st id).cache = true) ∧
    (scanRuns st id →
      (renderOrbitCacheStep st id).lastOrbitCacheFlush = st.frameCount) ∧
    (scanRuns st id →
      ∀ e ∈ (renderOrbitCacheStep st id).cache,
        st.frameCount - e.2 ≤ OrbitCacheRetireAge) ∧
    (renderOrbitCacheStep st id).cache.length ≤ st.cache.length + 1 := by
  unfold renderOrbitCacheStep
  cases hb : cacheLookup id st.cache with
  | true =>
    rw [if_pos rfl]
    refine ⟨?_, ?_, ?_, ?_, ?_⟩
    · intro e he hfalse
      rw [cacheLookup_setLastUsed, cacheLookup_mem he] at hfalse
      cases hfalse
    · intro _ e he
      rw [cacheLookup_setLastUsed]
      exact cacheLookup_mem he
    · intro hscan
      rw [hscan.1] at hb
      cases hb
    · intro hscan
      rw [hscan.1] at hb
      cases hb
    · show (setLastUsed id st.frameCount st.cache).length ≤ st.cache.length + 1
      unfold setLastUsed
      rw [List.length_map]
      exact Nat.le_succ _
  | false =>
    rw [if_neg Bool.false_ne_true]
    by_cases hcond : OrbitCacheCullThreshold < st.cache.length ∧
        st.lastOrbitCacheFlush ≠ st.frameCount
    · rw [if_pos hcond]
      refine ⟨?_, ?_, ?_, ?_, ?_⟩
      · intro e he hfalse
        refine ⟨hcond.1, ?_, hcond.2⟩
        by_contra hage
        have hpred : (fun x : ℕ × ℕ =>
            decide (st.frameCount - x.2 ≤ OrbitCacheRetireAge)) e = true := by
          simp only [decide_eq_true_eq]
          omega
        have hmem2 : e ∈ cullOldOrbits st.frameCount st.cache := by
          unfold cullOldOrbits
          exact List.mem_filter.mpr ⟨he, hpred⟩
        rw [cacheLookup_mem (List.mem_append_left _ hmem2)] at hfalse
        cases hfalse
      · intro hflush
        exact absurd hflush hcond.2
      · intro _
        rfl
      · intro _ e he
        rcases List.mem_append.mp he with h | h
        · have := (List.mem_filter.mp h).2
          simpa using this
        · rcases List.mem_singleton.mp h with rfl
          simp
      · show (cullOldOrbits st.frameCount st.cache ++ [(id, st.frameCount)]).length ≤
          st.cache.length + 1
        rw [List.length_append]
        have : (cullOldOrbits st.frameCount st.cache).length ≤ st.cache.length := by
          unfold cullOldOrbits
          exact List.length_filter_le _ _
        simpa using this
    · rw [if_neg hcond]
      refine ⟨?_, ?_, ?_, ?_, ?_⟩
      · intro e he hfalse
        rw [cacheLookup_mem (List.mem_append_left _ he)] at hfalse
        cases hfalse
      · intro _ e he
        exact cacheLookup_mem (List.mem_append_left _ he)
      · intro hscan
        exact (hcond ⟨hscan.2.1, hscan.2.2⟩).elim
      · intro hscan
        exact (hcond ⟨hscan.2.1, hscan.2.2⟩).elim
      · show (st.cache ++ [(id, st.frameCount)]).length ≤ st.cache.length + 1
        rw [List.length_append]
        simp

set_option maxRecDepth 40000 in
/-- Claim C4 witness: a 201-entry cache of stale orbits (last used in
frame 5, current frame 30, no scan this frame) triggers the scan on a
miss, and afterwards every remaining entry has age at most 16. -/
theorem orbitCache_eviction_discipline_witness :
    scanRuns { cache := (List.range 201).map fun k => (k, 5), frameCount := 30,
               lastOrbitCacheFlush := 0 } 999 ∧
    (∀ e ∈ (renderOrbitCacheStep
        { cache := (List.range 201).map fun k => (k, 5), frameCount := 30,
          lastOrbitCacheFlush := 0 } 999).cache,
      (30 : ℕ) - e.2 ≤ OrbitCacheRetireAge) :=
  ⟨by decide,
   (orbitCache_eviction_discipline
      { cache := (List.range 201).map fun k => (k, 5), frameCount := 30,
        lastOrbitCacheFlush := 0 } 999).2.2.2.1 (by decide)⟩

set_option maxRecDepth 40000 in
/-- Claim C4 counterexample: 202 distinct orbit misses in a single
frame (frame 1, starting from an empty cache) leave 202 cache entries,
while only one insertion happened after the eviction scan (which ran at
the 202nd miss, once the size exceeded 200, and removed nothing because
every entry was fresh).  The claimed bound `size <= 200 + insertions
since the last scan` is therefore false: 202 > 200 + 1. -/
theorem orbitCache_size_counterexample :
    ((List.range 202).foldl traceStep
      { st := { cache := [], frameCount := 1, lastOrbitCacheFlush := 0 },
        insertsSinceScan := 0 }).st.cache.length = 202 ∧
    ((List.range 202).foldl traceStep
      { st := { cache := [], frameCount := 1, lastOrbitCacheFlush := 0 },
        insertsSinceScan := 0 }).insertsSinceScan = 1 ∧
    ¬ (((List.range 202).foldl traceStep
      { st := { cache := [], frameCount := 1, lastOrbitCacheFlush := 0 },
        insertsSinceScan := 0 }).st.cache.length ≤
      OrbitCacheCullThreshold +
      ((List.range 202).foldl traceStep
        { st := { cache := [], frameCount := 1, lastOrbitCacheFlush := 0 },
          insertsSinceScan := 0 }).insertsSinceScan) := by
  decide

/-! ## Subtree recursion culling (claim C5) -/

/-- Claim C5, amended (corrected).  The subtree traversal decision of
buildRenderLists is not a three-way OR of the magnitude/size test, the
frustum test and the planetshine test: the subtree is traversed exactly
when (the best-case object passes the magnitude-or-angular-size test
AND the subtree bounding sphere passes the full view-frustum test) OR
the subtree can plausibly contribute planetshine (it contains secondary
illuminators, its best-case size exceeds the planetshine pixel limit,
and its influence sphere meets the view cone).  In particular, passing
the magnitude test alone does not force traversal when the frustum
test fails (see the counterexample). -/
theorem subtree_traversal_characterization (inp : SubtreeCullInput) :
    traverseSubtree inp = true ↔
      ((subtreeMagSizePasses inp ∧ subtreeFrustumPasses inp) ∨
        subtreeShinePasses inp) := by
  unfold traverseSubtree subtreeMagSizePasses subtreeFrustumPasses subtreeShinePasses
  dsimp only
  cases hfo : inp.frustumOutside <;>
    by_cases hms : (subtreeBrightestLargest inp).1 < inp.faintestPlanetMag ∨
      1 < (subtreeBrightestLargest inp).2 <;>
    by_cases hcs : inp.containsSecondaryIlluminators = true <;>
    by_cases hL : PLANETSHINE_PIXEL_SIZE_LIMIT < (subtreeBrightestLargest inp).2 <;>
    by_cases hcone : subtreeShineCone inp <;>
    simp [hms, hcs, hL, hcone, hfo]

/-- Claim C5 counterexample: for this input the subtree's best-case
object passes the limiting-magnitude threshold (brightest possible
magnitude -10 against faintest 6), yet the subtree bounding sphere is
outside the view frustum and it contains no secondary illuminators, so
buildRenderLists skips the subtree — contradicting the claim that any
one of the three conditions passing forces traversal. -/
theorem subtree_cull_counterexample :
    traverseSubtree
      { distV := 100, boundingSphereRadius := 1, maxChildRadius := 1,
        pixelSize := 1, faintestPlanetMag := 6, brightestFarMag := -10,
        frustumOutside := true, containsSecondaryIlluminators := false,
        distVN := 0, sinViewAngle := 0, invCosViewAngle := 0,
        perpDistSq := 0 } = false ∧
    subtreeMagSizePasses
      { distV := 100, boundingSphereRadius := 1, maxChildRadius := 1,
        pixelSize := 1, faintestPlanetMag := 6, brightestFarMag := -10,
        frustumOutside := true, containsSecondaryIlluminators := false,
        distVN := 0, sinViewAngle := 0, invCosViewAngle := 0,
        perpDistSq := 0 } := by
  constructor
  · with_unfolding_all decide
  · with_unfolding_all decide

/-! ## Eclipse testing (claims C6, C10) -/

/-- Claim C6 (confirmed).  Eclipse test preconditions: unless the
caster's radius is at least the receiver's radius times
MinRelativeOccluderRadius (0.005), the caster has visible geometry,
the caster exists at the given time, and the caster is ellipsoidal,
testEclipse reports no eclipse: it returns false and leaves both the
eclipse-shadow list and the ring-shadow slot untouched. -/
theorem testEclipse_preconditions_guard
    (receiver caster : BodyModel) (lightApparentSize : ℚ) (g : EclipseGeom)
    (shadows : List EclipseShadowM)
    (h : ¬ eclipsePreconditions receiver caster) :
    testEclipse receiver caster lightApparentSize g shadows =
      { isReceiverShadowed := false, shadows := shadows,
        ringShadowSet := false } := by
  unfold testEclipse
  rw [if_neg h]

/-- Claim C6 witness: a non-ellipsoidal caster fails the guard and the
call is a no-op reporting no eclipse. -/
theorem testEclipse_preconditions_guard_witness :
    ¬ eclipsePreconditions
        { radius := 1, hasVisibleGeometry := true, extant := true,
          isEllipsoid := true, hasRings := false, ringsOuterRadius := 0 }
        { radius := 1, hasVisibleGeometry := true, extant := true,
          isEllipsoid := false, hasRings := false, ringsOuterRadius := 0 } ∧
    testEclipse
        { radius := 1, hasVisibleGeometry := true, extant := true,
          isEllipsoid := true, hasRings := false, ringsOuterRadius := 0 }
        { radius := 1, hasVisibleGeometry := true, extant := true,
          isEllipsoid := false, hasRings := false, ringsOuterRadius := 0 }
        1 { distToCasterCenter := 101, axisDist := 0, dotAlign := 1 } [] =
      { isReceiverShadowed := false, shadows := [], ringShadowSet := false } :=
  ⟨by with_unfolding_all decide,
   testEclipse_preconditions_guard
     { radius := 1, hasVisibleGeometry := true, extant := true,
       isEllipsoid := true, hasRings := false, ringsOuterRadius := 0 }
     { radius := 1, hasVisibleGeometry := true, extant := true,
       isEllipsoid := false, hasRings := false, ringsOuterRadius := 0 }
     1 { distToCasterCenter := 101, axisDist := 0, dotAlign := 1 } []
     (by with_unfolding_all decide)⟩

/-- Claim C10 (confirmed).  testEclipse's boolean result can disagree
with its shadow output: when the preconditions hold, the receiver lies
within the caster's shadow cylinder (axis distance below receiver
radius plus penumbra radius) and the receiver is behind the caster as
seen from the light (positive alignment dot product), testEclipse
returns true even when the computed maximum shadow depth is at most
1/256, in which case no eclipse-shadow descriptor is appended — a true
return does not imply a shadow was recorded. -/
theorem testEclipse_true_without_shadow
    (receiver caster : BodyModel) (lightApparentSize : ℚ) (g : EclipseGeom)
    (shadows : List EclipseShadowM)
    (hpre : eclipsePreconditions receiver caster)
    (hdist : g.axisDist < receiver.radius +
      eclipseShadowRadius receiver caster lightApparentSize g)
    (hdot : 0 < g.dotAlign)
    (hdepth : eclipseMaxDepth receiver caster lightApparentSize g ≤ 1 / 256) :
    (testEclipse receiver caster lightApparentSize g shadows).isReceiverShadowed =
      true ∧
    (testEclipse receiver caster lightApparentSize g shadows).shadows = shadows := by
  unfold testEclipse
  rw [if_pos hpre]
  dsimp only
  rw [decide_eq_true hdist, decide_eq_true hdot]
  constructor
  · rfl
  · rw [if_neg]
    intro hcontra
    exact absurd hcontra.2 (not_lt.mpr hdepth)

/-- Claim C10 witness: two unit-radius ellipsoidal bodies 101 radii
apart under a large-apparent-size light give maximum shadow depth
1/10000 <= 1/256; testEclipse returns true yet appends nothing. -/
theorem testEclipse_true_without_shadow_witness :
    (eclipsePreconditions
        { radius := 1, hasVisibleGeometry := true, extant := true,
          isEllipsoid := true, hasRings := false, ringsOuterRadius := 0 }
        { radius := 1, hasVisibleGeometry := true, extant := true,
          isEllipsoid := true, hasRings := false, ringsOuterRadius := 0 } ∧
     (0 : ℚ) <
       (1 : ℚ) + eclipseShadowRadius
        { radius := 1, hasVisibleGeometry := true, extant := true,
          isEllipsoid := true, hasRings := false, ringsOuterRadius := 0 }
        { radius := 1, hasVisibleGeometry := true, extant := true,
          isEllipsoid := true, hasRings := false, ringsOuterRadius := 0 }
        1 { distToCasterCenter := 101, axisDist := 0, dotAlign := 1 } ∧
     eclipseMaxDepth
        { radius := 1, hasVisibleGeometry := true, extant := true,
          isEllipsoid := true, hasRings := false, ringsOuterRadius := 0 }
        { radius := 1, hasVisibleGeometry := true, extant := true,
          isEllipsoid := true, hasRings := false, ringsOuterRadius := 0 }
        1 { distToCasterCenter := 101, axisDist := 0, dotAlign := 1 } ≤ 1 / 256) ∧
    ((testEclipse
        { radius := 1, hasVisibleGeometry := true, extant := true,
          isEllipsoid := true, hasRings := false, ringsOuterRadius := 0 }
        { radius := 1, hasVisibleGeometry := true, extant := true,
          isEllipsoid := true, hasRings := false, ringsOuterRadius := 0 }
        1 { distToCasterCenter := 101, axisDist := 0, dotAlign := 1 }
        []).isReceiverShadowed = true ∧
     (testEclipse
        { radius := 1, hasVisibleGeometry := true, extant := true,
          isEllipsoid := true, hasRings := false, ringsOuterRadius := 0 }
        { radius := 1, hasVisibleGeometry := true, extant := true,
          isEllipsoid := true, hasRings := false, ringsOuterRadius := 0 }
        1 { distToCasterCenter := 101, axisDist := 0, dotAlign := 1 }
        []).shadows = []) :=
  ⟨⟨by with_unfolding_all decide, by with_unfolding_all decide,
    by with_unfolding_all decide⟩,
   testEclipse_true_without_shadow
     { radius := 1, hasVisibleGeometry := true, extant := true,
       isEllipsoid := true, hasRings := false, ringsOuterRadius := 0 }
     { radius := 1, hasVisibleGeometry := true, extant := true,
       isEllipsoid := true, hasRings := false, ringsOuterRadius := 0 }
     1 { distToCasterCenter := 101, axisDist := 0, dotAlign := 1 } []
     (by with_unfolding_all decide) (by with_unfolding_all decide)
     (by with_unfolding_all decide) (by with_unfolding_all decide)⟩

end Celestia
